import Mathlib

/-!
# Verification of the meta_finder metadata-extraction pipeline

Shallow embedding, in Lean 4, of the core of the `meta_finder` repository:
the type classifier (`src/utils/file_detection.py`), the generic, archive
and document extraction backends (`src/extractors/generic_extractor.py`,
`src/extractors/archive_extractor.py`, `src/extractors/document_extractor.py`)
and the metadata normalizer (`src/utils/normalize.py`).

Python strings are modelled at the character-list level; the helpers below
(`pyLower`, `pyStartsWith`, `pyIn`, ...) each embed one Python `str` method
used by the source.  File-system and third-party-library effects are passed
in as explicit parameters: a fallible Python call (one whose failure the
source catches as an exception) is modelled as an `Except String` value
carrying the exception message, and an external library's parse result is a
plain data parameter.  Python `float` arithmetic is represented by exact
rationals (`ℚ`); the rendering of floats and the `repr`-style rendering of
exotic nested values are approximated, as noted on the definitions, and no
theorem below depends on them.
-/

/-! ## Python string primitives -/

/-- Python `str.lower()` (ASCII case folding, as used on MIME strings). -/
def pyLower (s : String) : String := ⟨s.data.map Char.toLower⟩

/-- Python `str.startswith(pre)`. -/
def pyStartsWith (s pre : String) : Bool := pre.data.isPrefixOf s.data

/-- Python `sub in s` (contiguous-substring containment). -/
def pyIn (sub s : String) : Bool := decide (sub.data <:+: s.data)

/-- Python `s[:n]` (slicing by characters). -/
def pySlice (s : String) (n : Nat) : String := ⟨s.data.take n⟩

/-- Python `s.replace(old, new)` for single-character `old`/`new`. -/
def pyReplaceChar (s : String) (old new : Char) : String :=
  ⟨s.data.map (fun c => if c = old then new else c)⟩

/-- Python `s.count(c)` for a single-character needle. -/
def pyCountChar (s : String) (c : Char) : Nat := s.data.count c

/-- Python `len(s)`. -/
def pyLen (s : String) : Nat := s.data.length

/-- Python `s.split()` with no argument: split on whitespace runs,
discarding empty fields. -/
def pySplitWs (s : String) : List String :=
  (s.split (fun c => c.isWhitespace)).filter (fun w => w ≠ "")

/-- Python `str.title()`: the first letter of every alphabetic run is
uppercased, the following letters of the run are lowercased; any
non-alphabetic character starts a new run. -/
def pyTitleAux : List Char → Bool → List Char
  | [], _ => []
  | c :: cs, prevAlpha =>
    (if c.isAlpha then (if prevAlpha then c.toLower else c.toUpper) else c)
      :: pyTitleAux cs c.isAlpha

/-- Python `str.title()`. -/
def pyTitle (s : String) : String := ⟨pyTitleAux s.data false⟩

/-! ## Type classifier (`src/utils/file_detection.py`) -/

/-- `get_file_category` from `src/utils/file_detection.py`, lines 43-69:
categorize a MIME type string into one of six broad categories. -/
def get_file_category (mime_type : String) : String :=
  if mime_type = "" then "other"
  else
    let mime_lower := pyLower mime_type
    if pyStartsWith mime_lower "image/" then "image"
    else if pyStartsWith mime_lower "audio/" then "audio"
    else if pyStartsWith mime_lower "video/" then "video"
    else if ["pdf", "word", "document", "text", "officedocument"].any
        (fun x => pyIn x mime_lower) then "document"
    else if ["zip", "rar", "7z", "tar", "gzip", "compress"].any
        (fun x => pyIn x mime_lower) then "archive"
    else "other"

/-- `detect_type` from `src/utils/file_detection.py`, lines 13-40.
The file system and the two MIME facilities are explicit parameters:
`pathExists` is `os.path.exists(file_path)`; `magicAvailable` is the
module-level `MAGIC_AVAILABLE` flag; `magicResult` is the outcome of
`magic.Magic(mime=True).from_file(file_path)` (`none` when that call raises,
which the source catches); `mimeGuess` is the first component of
`mimetypes.guess_type(file_path)` (`none` for Python `None`). -/
def detect_type (pathExists magicAvailable : Bool)
    (magicResult mimeGuess : Option String) : String :=
  if pathExists = false then "unknown/unknown"
  else
    match magicAvailable, magicResult with
    | true, some m => m
    | _, _ =>
      match mimeGuess with
      | some t => t
      | none => "application/octet-stream"

/-- Modelled from the spec (claim C3's words), for refinement comparison
with `detect_type`: "first attempts content-based sniffing of the file's
bytes; if that facility is unavailable or fails, falls back to
extension-based MIME lookup; returns the generic octet-stream type only
when both fail", for every input path, existing or not.  Sniffing the
bytes of a nonexistent file fails, so the effective sniff result on a
nonexistent path is `none`. -/
def detect_type_claimed (pathExists magicAvailable : Bool)
    (magicResult mimeGuess : Option String) : String :=
  let sniff : Option String :=
    if pathExists ∧ magicAvailable then magicResult else none
  match sniff with
  | some m => m
  | none =>
    match mimeGuess with
    | some t => t
    | none => "application/octet-stream"

/-! ## Metadata values

The extractors store only strings, integers, floats and booleans in their
metadata maps; the list/dict/bytes branches of the normalizer are defensive
generality, which the model keeps.  A Python `float` is carried as the exact
rational the code computes (binary floating point is outside the shallow
embedding). -/

/-- A metadata value, as stored in a Python metadata dictionary. -/
inductive Value where
  | str (s : String)
  | int (n : Int)
  | bool (b : Bool)
  | float (q : ℚ)
  | seq (elems : List Value)
  | dict (entries : List (String × Value))
  | bytes (data : List Nat)

/-- Rendering of a Python `float`.  Floating-point `repr` is outside the
shallow embedding; the carried rational is rendered by an arbitrary total
stand-in.  No theorem below depends on this rendering. -/
def fmtFloat (q : ℚ) : String := toString q

/-- Python `round(x, 2)` on the exact rational carried for a float
(half-up at exact halves; Python's float round is half-even, but exact
decimal halves are not representable in binary floats anyway). -/
def pyRound2 (q : ℚ) : ℚ := ((round (q * 100) : ℤ) : ℚ) / 100

mutual

/-- Python `str(value)` for a metadata value.  Exact for strings, integers
and booleans (the only shapes the program nests); the `float`, `seq`,
`dict` and `bytes` renderings, which Python would produce via `repr`, are
approximated and exercised by no theorem. -/
def pyStr : Value → String
  | .str s => s
  | .int n => toString n
  | .bool b => if b then "True" else "False"
  | .float q => fmtFloat q
  | .seq es => "[" ++ String.intercalate ", " (pyStrList es) ++ "]"
  | .dict es => "\x7b" ++ String.intercalate ", " (pyStrEntries es) ++ "\x7d"
  | .bytes bs => "bytes-" ++ toString bs.length

/-- `str` of each element of a Python list. -/
def pyStrList : List Value → List String
  | [] => []
  | v :: vs => pyStr v :: pyStrList vs

/-- `str` of each entry of a Python dict (approximate `repr` rendering). -/
def pyStrEntries : List (String × Value) → List String
  | [] => []
  | (k, v) :: rest => (k ++ ": " ++ pyStr v) :: pyStrEntries rest

end

/-- A Python metadata dictionary, modelled as an association list in
insertion order.  Python dictionaries have unique keys; theorems that need
uniqueness take it as a `Nodup` hypothesis on the key list. -/
abbrev MetadataMap := List (String × Value)

/-- Python `d[key]` / `key in d`: the value stored under `key`, if any. -/
def pyLookup (k : String) : MetadataMap → Option Value
  | [] => none
  | (k', v) :: rest => if k' = k then some v else pyLookup k rest

/-- The key list of a metadata dictionary, in insertion order. -/
def dictKeys (m : MetadataMap) : List String := m.map Prod.fst

/-- Python `m.update(n)`: entries of `n` override entries of `m` with the
same key.  Lookup semantics match Python exactly; the position of an
overridden key may differ, which is unobservable here (the normalizer
re-sorts, and every merge in this program has disjoint key sets). -/
def dictUpdate (m n : MetadataMap) : MetadataMap :=
  m.filter (fun kv => (pyLookup kv.1 n).isNone) ++ n

/-! ## Metadata normalizer (`src/utils/normalize.py`) -/

/-- `' ' * indent`. -/
def spaces (n : Nat) : String := ⟨List.replicate n ' '⟩

/-- `format_nested_dict` from `src/utils/normalize.py`, lines 58-67. -/
def format_nested_dict : List (String × Value) → Nat → String
  | [], _ => ""
  | (key, value) :: rest, indent =>
    (match value with
     | .dict d => "\n" ++ spaces indent ++ key ++ ":" ++ format_nested_dict d (indent + 2)
     | v => "\n" ++ spaces indent ++ key ++ ": " ++ pyStr v)
      ++ format_nested_dict rest indent

/-- The value-formatting cascade of `normalize_metadata`
(`src/utils/normalize.py`, lines 36-43): sequences are comma-space-joined,
nested dicts render via `format_nested_dict`, bytes render as a length
placeholder, everything else via `str`. -/
def formatValue : Value → String
  | .seq es => String.intercalate ", " (pyStrList es)
  | .dict es => format_nested_dict es 2
  | .bytes bs => "<binary data: " ++ toString bs.length ++ " bytes>"
  | v => pyStr v

/-- The key display transform of `normalize_metadata`
(`src/utils/normalize.py`, line 46): `key.replace('_', ' ').title()`. -/
def displayKey (k : String) : String := pyTitle (pyReplaceChar k '_' ' ')

/-- The 80-character rule line. -/
def bar80 : String := ⟨List.replicate 80 '='⟩

/-- The fixed report header (`src/utils/normalize.py`, lines 17-25), with
the wall-clock timestamp passed in as `now`. -/
def normalizeHeader (file_path mime_type now : String) : List String :=
  [bar80, "METADATA EXTRACTION REPORT", bar80,
   "Generated: " ++ now, "File: " ++ file_path, "MIME Type: " ++ mime_type,
   bar80, ""]

/-- `sorted(metadata_dict.keys())` (`src/utils/normalize.py`, line 32):
the raw keys in ascending lexicographic order. -/
def sortedKeys (m : MetadataMap) : List String :=
  List.insertionSort (· ≤ ·) (dictKeys m)

/-- The body of the report: one line per key, keys visited in sorted order,
each rendered as `displayKey key ++ ": " ++ formatted value`
(`src/utils/normalize.py`, lines 32-48). -/
def bodyLines (m : MetadataMap) : List String :=
  (sortedKeys m).map (fun key =>
    displayKey key ++ ": " ++ formatValue ((pyLookup key m).getD (Value.str "")))

/-- The full line list built by `normalize_metadata`
(`src/utils/normalize.py`, lines 17-53).  The empty-map early return
(lines 27-29) yields the header plus the single no-metadata line. -/
def normalizeLines (m : MetadataMap) (file_path mime_type now : String) : List String :=
  if m.isEmpty then
    normalizeHeader file_path mime_type now ++
      ["⚠️  No metadata found or unable to extract metadata."]
  else
    normalizeHeader file_path mime_type now ++ bodyLines m ++
      ["", bar80, "Total metadata fields: " ++ toString m.length, bar80]

/-- `normalize_metadata` from `src/utils/normalize.py`, lines 5-55:
the built lines joined with newlines. -/
def normalize_metadata (m : MetadataMap) (file_path mime_type now : String) : String :=
  String.intercalate "\n" (normalizeLines m file_path mime_type now)

/-! ## Generic extractor (`src/extractors/generic_extractor.py`) -/

/-- Python `s.endswith(suf)`. -/
def pyEndsWith (s suf : String) : Bool := decide (suf.data <:+ s.data)

/-- The chunks produced by `iter(lambda: f.read(4096), b"")`: successive
`n`-byte reads of the file content until exhaustion. -/
def chunkList (n : Nat) (l : List Nat) : List (List Nat) :=
  if h : n = 0 ∨ l = [] then [] else l.take n :: chunkList n (l.drop n)
termination_by l.length
decreasing_by
  push_neg at h
  have hl : 0 < l.length := List.length_pos.mpr h.2
  simp only [List.length_drop]
  omega

/-- The fields of an `os.stat` result used by `get_basic_info`.  The three
`st_*time` floats appear only through `str(...)`, so they are carried as
their rendered strings. -/
structure Stat where
  size : Nat
  ctime : String
  mtime : String
  atime : String

/-- The file-system view `generic_extractor` reads, as explicit parameters:
`fileName` is `os.path.basename(file_path)` and `fileExt` is
`os.path.splitext(file_path)[1]` (both total path functions); `statRes` is
the fallible `os.stat(file_path)`; `sizeRes` the fallible
`os.path.getsize(file_path)`; `contentRes` the fallible
`open(file_path, 'rb')` plus full read.  An `Except.error` carries the
exception message. -/
structure GenericFS where
  fileName : String
  fileExt : String
  statRes : Except String Stat
  sizeRes : Except String Nat
  contentRes : Except String (List Nat)

/-- `get_basic_info` from `src/extractors/generic_extractor.py`,
lines 41-56.  The `os.stat` call is not inside any `try`: its failure
propagates, hence the `Except` result. -/
def get_basic_info (fs : GenericFS) : Except String MetadataMap :=
  fs.statRes.map fun stat =>
    [("file_name", .str fs.fileName),
     ("file_extension", .str fs.fileExt),
     ("file_size_bytes", .int stat.size),
     ("file_size_kb", .float (pyRound2 ((stat.size : ℚ) / 1024))),
     ("file_size_mb", .float (pyRound2 ((stat.size : ℚ) / (1024 * 1024)))),
     ("creation_time", .str stat.ctime),
     ("modification_time", .str stat.mtime),
     ("access_time", .str stat.atime)]

/-- `calculate_hashes` from `src/extractors/generic_extractor.py`,
lines 59-85.  `md5` and `sha256` are the digest functions of `hashlib`,
abstract maps from the byte sequence a hasher absorbed to its hex digest;
the streaming loop is modelled by feeding the concatenation of the 4096-byte
chunks, exactly the bytes each hasher's `update` calls absorb.  `maxSize`
is the `max_size` parameter (default `100 * 1024 * 1024` at the call site). -/
def calculate_hashes (sizeRes : Except String Nat)
    (contentRes : Except String (List Nat))
    (md5 sha256 : List Nat → String) (maxSize : Nat) : MetadataMap :=
  match sizeRes with
  | .error e => [("hash_error", .str e)]
  | .ok file_size =>
    if file_size > maxSize then
      [("hash_note", .str ("File too large (" ++ toString file_size ++
        " bytes), skipping hash calculation"))]
    else
      match contentRes with
      | .error e => [("hash_error", .str e)]
      | .ok content =>
        let fed := (chunkList 4096 content).foldl (fun acc chunk => acc ++ chunk) []
        [("md5_hash", .str (md5 fed)), ("sha256_hash", .str (sha256 fed))]

/-- A lowercase hex digit, as produced by Python `f'{b:02x}'`. -/
def hexChar (n : Nat) : Char :=
  if n < 10 then Char.ofNat (48 + n) else Char.ofNat (97 + (n - 10))

/-- Python `f'{b:02x}'` for a byte value `b < 256`. -/
def hexByte (b : Nat) : String := ⟨[hexChar (b / 16 % 16), hexChar (b % 16)]⟩

/-- The `magic_signatures` table of `inspect_header`
(`src/extractors/generic_extractor.py`, lines 126-137), in source order
(Python dict iteration follows insertion order). -/
def magic_signatures : List (List Nat × String) :=
  [([0xFF, 0xD8, 0xFF], "JPEG image"),
   ([0x89, 0x50, 0x4E, 0x47], "PNG image"),
   ([0x47, 0x49, 0x46, 0x38], "GIF image"),
   ([0x25, 0x50, 0x44, 0x46], "PDF document"),
   ([0x50, 0x4B, 0x03, 0x04], "ZIP archive"),
   ([0x1F, 0x8B], "GZIP compressed"),
   ([0x52, 0x61, 0x72, 0x21], "RAR archive"),
   ([0x37, 0x7A, 0xBC, 0xAF], "7-Zip archive"),
   ([0x49, 0x44, 0x33], "MP3 audio"),
   ([0x00, 0x00, 0x00, 0x18, 0x66, 0x74, 0x79, 0x70, 0x6D, 0x70, 0x34, 0x32],
    "MP4 video")]

/-- `inspect_header` from `src/extractors/generic_extractor.py`,
lines 109-147.  `contentRes` is the fallible `open` plus read (the code
reads only the first `header_size` bytes; taking them from the full
content is equivalent); `header_size` is 16 at the call site. -/
def inspect_header (contentRes : Except String (List Nat))
    (header_size : Nat) : MetadataMap :=
  match contentRes with
  | .error e => [("header_error", .str e)]
  | .ok content =>
    let header := content.take header_size
    let hex_header := String.intercalate " " (header.map hexByte)
    let ascii_header : String :=
      ⟨header.map (fun b => if 32 ≤ b ∧ b < 127 then Char.ofNat b else '.')⟩
    [("file_header_hex", .str hex_header),
     ("file_header_ascii", .str ascii_header)] ++
    (match magic_signatures.find? (fun sig => sig.1.isPrefixOf header) with
     | some sig => [("identified_format", .str sig.2)]
     | none => [])

/-- `extract` from `src/extractors/generic_extractor.py`, lines 13-38.
`hachoirAvailable` is the module-level `HACHOIR_AVAILABLE` flag and
`hachoirMeta` the map `extract_with_hachoir` returns (that helper catches
its own exceptions and always returns a dict, so its output is an opaque
map parameter).  The initial `get_basic_info` call sits outside every
`try`, so its failure propagates out of `extract`. -/
def generic_extract (fs : GenericFS) (hachoirAvailable : Bool)
    (hachoirMeta : MetadataMap) (md5 sha256 : List Nat → String) :
    Except String MetadataMap :=
  match get_basic_info fs with
  | .error e => .error e
  | .ok basic =>
    let m := dictUpdate [] basic
    let m := dictUpdate m
      (calculate_hashes fs.sizeRes fs.contentRes md5 sha256 (100 * 1024 * 1024))
    let m := if hachoirAvailable then dictUpdate m hachoirMeta else m
    .ok (dictUpdate m (inspect_header fs.contentRes 16))

/-! ## Archive extractor (`src/extractors/archive_extractor.py`) -/

/-- The fields of a `zipfile.ZipInfo` member used by `extract_zip`. -/
structure ZipInfo where
  filename : String
  file_size : Nat

/-- `extract_zip` from `src/extractors/archive_extractor.py`, lines 53-83.
`infolistRes` is the fallible `zipfile.ZipFile` open plus `infolist()`;
`statRes` is the fallible `os.stat(file_path).st_size` reached only when
the total uncompressed size is positive (it sits inside the same `try`, so
its failure leaves the keys built so far and adds `zip_error`). -/
def extract_zip (infolistRes : Except String (List ZipInfo))
    (statRes : Except String Nat) : MetadataMap :=
  match infolistRes with
  | .error e => [("zip_error", .str e)]
  | .ok info_list =>
    let total_uncompressed := (info_list.map ZipInfo.file_size).sum
    let base : MetadataMap :=
      [("num_files", .int info_list.length),
       ("compression_type", .str "ZIP"),
       ("total_uncompressed_size_mb",
        .float (pyRound2 ((total_uncompressed : ℚ) / (1024 * 1024))))]
    let fileListPart : MetadataMap :=
      [("file_list", .str (String.intercalate ", "
          ((info_list.take 50).map ZipInfo.filename)))] ++
      (if info_list.length > 50 then
         [("file_list_note", .str ("... and " ++
            toString (info_list.length - 50) ++ " more files"))]
       else [])
    if total_uncompressed > 0 then
      match statRes with
      | .error e => base ++ [("zip_error", .str e)]
      | .ok st_size =>
        base ++
          [("compression_ratio_percent",
            .float (pyRound2 ((1 - (st_size : ℚ) / (total_uncompressed : ℚ)) * 100)))] ++
          fileListPart
    else base ++ fileListPart

/-- The fields of a `tarfile.TarInfo` member used by `extract_tar`. -/
structure TarMember where
  name : String
  size : Nat

/-- The mode-selection chain of `extract_tar`
(`src/extractors/archive_extractor.py`, lines 91-99). -/
def tarMode (file_path : String) : String :=
  if pyEndsWith file_path ".tar.gz" ∨ pyEndsWith file_path ".tgz" then "r:gz"
  else if pyEndsWith file_path ".tar.bz2" then "r:bz2"
  else if pyEndsWith file_path ".tar.xz" then "r:xz"
  else "r"

/-- `extract_tar` from `src/extractors/archive_extractor.py`,
lines 86-120.  The computed mode only tells `tarfile.open` how to
decompress; `membersRes` is that fallible open plus `getmembers()`. -/
def extract_tar (file_path : String)
    (membersRes : Except String (List TarMember)) : MetadataMap :=
  let _mode := tarMode file_path
  match membersRes with
  | .error e => [("tar_error", .str e)]
  | .ok members =>
    [("num_files", .int members.length),
     ("compression_type", .str "TAR"),
     ("total_uncompressed_size_mb",
      .float (pyRound2 (((members.map TarMember.size).sum : ℚ) / (1024 * 1024))))] ++
    [("file_list", .str (String.intercalate ", "
        ((members.take 50).map TarMember.name)))] ++
    (if members.length > 50 then
       [("file_list_note", .str ("... and " ++
          toString (members.length - 50) ++ " more files"))]
     else [])

/-! ## Document extractor (`src/extractors/document_extractor.py`) -/

/-- `extract_txt` from `src/extractors/document_extractor.py`,
lines 136-155.  `openRes` is the fallible `open(..., 'r', encoding='utf-8',
errors='ignore')` plus full read, carrying the decoded text. -/
def extract_txt (openRes : Except String String) : MetadataMap :=
  match openRes with
  | .error e => [("txt_error", .str e)]
  | .ok content =>
    let preview := if content ≠ "" then pySlice content 200 else ""
    [("num_characters", .int (pyLen content)),
     ("num_lines", .int (pyCountChar content '\n' + 1)),
     ("num_words", .int (pySplitWs content).length),
     ("preview", .str (pyReplaceChar preview '\n' ' '))]

/-- The `core_properties` fields `extract_docx` reads.  Fields the code
passes through `x or ''` are `Option String` (`none` for Python `None`);
`created`/`modified` are carried as their `str(...)` renderings. -/
structure DocxProps where
  title : Option String
  author : Option String
  subject : Option String
  keywords : Option String
  comments : Option String
  category : Option String
  created : Option String
  modified : Option String
  last_modified_by : Option String
  revision : Int

/-- The parts of a `python-docx` `Document` that `extract_docx` reads. -/
structure DocxDoc where
  props : DocxProps
  paragraphs : List String
  numTables : Nat
  numSections : Nat

/-- `extract_docx` from `src/extractors/document_extractor.py`,
lines 100-133.  `docRes` is the fallible `Document(file_path)` parse.
Note that the first-paragraph preview is sliced to 200 characters but, in
this source, its newlines are not replaced. -/
def extract_docx (docRes : Except String DocxDoc) : MetadataMap :=
  match docRes with
  | .error e => [("docx_error", .str e)]
  | .ok doc =>
    [("docx_title", .str (doc.props.title.getD "")),
     ("docx_author", .str (doc.props.author.getD "")),
     ("docx_subject", .str (doc.props.subject.getD "")),
     ("docx_keywords", .str (doc.props.keywords.getD "")),
     ("docx_comments", .str (doc.props.comments.getD "")),
     ("docx_category", .str (doc.props.category.getD "")),
     ("docx_created", .str (doc.props.created.getD "")),
     ("docx_modified", .str (doc.props.modified.getD "")),
     ("docx_last_modified_by", .str (doc.props.last_modified_by.getD "")),
     ("docx_revision", .int doc.props.revision),
     ("num_paragraphs", .int doc.paragraphs.length),
     ("num_tables", .int doc.numTables),
     ("num_sections", .int doc.numSections)] ++
    (match doc.paragraphs with
     | [] => []
     | first_para :: _ =>
       [("first_paragraph_preview", .str (pySlice first_para 200))])

/-- The parts of a `PyPDF2.PdfReader` that `extract_pdf` reads: the page
count, the optional metadata mapping (entry values carried as their
`str(...)` renderings), the encryption flag and the fallible-to-`None`
first-page text. -/
structure PdfDoc where
  numPages : Nat
  meta : Option (List (String × String))
  isEncrypted : Bool
  firstPageText : Option String

/-- Python `meta.get(key, '')` on the PDF metadata mapping. -/
def pdfGet (meta : List (String × String)) (k : String) : String :=
  match meta.find? (fun kv => kv.1 == k) with
  | some kv => kv.2
  | none => ""

/-- Python `s.strip(c)` for a single strip character. -/
def pyStripChar (s : String) (c : Char) : String :=
  ⟨((s.data.dropWhile (fun x => x = c)).reverse.dropWhile (fun x => x = c)).reverse⟩

/-- The seven explicitly-read PDF info keys
(`src/extractors/document_extractor.py`, lines 80-81). -/
def pdfFixedKeys : List String :=
  ["/Title", "/Author", "/Subject", "/Creator",
   "/Producer", "/CreationDate", "/ModDate"]

/-- `extract_pdf` from `src/extractors/document_extractor.py`,
lines 57-97.  The first-page preview is sliced to 200 characters and its
newlines replaced by spaces; `first_page_text` being `None` or empty both
yield an empty preview. -/
def extract_pdf (docRes : Except String PdfDoc) : MetadataMap :=
  match docRes with
  | .error e => [("pdf_error", .str e)]
  | .ok reader =>
    [("num_pages", .int reader.numPages)] ++
    (match reader.meta with
     | none => []
     | some meta =>
       [("pdf_title", .str (pdfGet meta "/Title")),
        ("pdf_author", .str (pdfGet meta "/Author")),
        ("pdf_subject", .str (pdfGet meta "/Subject")),
        ("pdf_creator", .str (pdfGet meta "/Creator")),
        ("pdf_producer", .str (pdfGet meta "/Producer")),
        ("pdf_creation_date", .str (pdfGet meta "/CreationDate")),
        ("pdf_modification_date", .str (pdfGet meta "/ModDate"))] ++
       ((meta.filter (fun kv => !(pdfFixedKeys.contains kv.1))).map (fun kv =>
         ("pdf_" ++ pyReplaceChar (pyStripChar kv.1 '/') '/' '_',
          Value.str kv.2)))) ++
    [("is_encrypted", .bool reader.isEncrypted)] ++
    (if reader.numPages > 0 then
       [("first_page_preview", .str (pyReplaceChar
          (match reader.firstPageText with
           | some t => if t ≠ "" then pySlice t 200 else ""
           | none => "") '\n' ' '))]
     else [])

/-- The file-system view of a nonexistent input path: the stat, getsize and
open calls all raise `FileNotFoundError`. -/
def missingFS : GenericFS :=
  { fileName := "ghost.bin"
    fileExt := ".bin"
    statRes := .error "[Errno 2] No such file or directory: ghost.bin"
    sizeRes := .error "[Errno 2] No such file or directory: ghost.bin"
    contentRes := .error "[Errno 2] No such file or directory: ghost.bin" }

/-- The file-system view used by C1's witness: the stat succeeds, the
getsize and open calls fail. -/
def witnessFS : GenericFS :=
  { fileName := "sample.bin"
    fileExt := ".bin"
    statRes := .ok { size := 4, ctime := "1.0", mtime := "2.0", atime := "3.0" }
    sizeRes := .error "read denied"
    contentRes := .error "read denied" }

/-- The `python-docx` document used by C7's counterexample: its first
paragraph contains an embedded newline. -/
def cexDocx : DocxDoc :=
  { props := { title := none, author := none, subject := none, keywords := none,
               comments := none, category := none, created := none, modified := none,
               last_modified_by := none, revision := 1 }
    paragraphs := ["line one\nline two"]
    numTables := 0
    numSections := 0 }

/-! ## Helper lemmas -/

theorem foldl_append_eq_join (cs : List (List Nat)) (acc : List Nat) :
    cs.foldl (fun a c => a ++ c) acc = acc ++ cs.flatten := by
  induction cs generalizing acc with
  | nil => simp
  | cons c cs ih => simp [List.foldl, ih, List.append_assoc]

theorem chunkList_join (n : Nat) (hn : n ≠ 0) (l : List Nat) :
    (chunkList n l).flatten = l := by
  induction l using chunkList.induct n with
  | case1 l h =>
    rcases h with h | h
    · exact absurd h hn
    · subst h; rw [chunkList]; simp
  | case2 l h ih =>
    rw [chunkList]
    rw [dif_neg h]
    simp [List.flatten, ih]

theorem pyLookup_append_some (k : String) (l₁ l₂ : MetadataMap) (v : Value)
    (h : pyLookup k l₁ = some v) : pyLookup k (l₁ ++ l₂) = some v := by
  induction l₁ with
  | nil => simp [pyLookup] at h
  | cons kv rest ih =>
    obtain ⟨k', v'⟩ := kv
    by_cases hk : k' = k
    · simp [pyLookup, hk] at h ⊢; exact h
    · simp [pyLookup, hk] at h ⊢; exact ih h

theorem pyLookup_append_none (k : String) (l₁ l₂ : MetadataMap)
    (h : pyLookup k l₁ = none) : pyLookup k (l₁ ++ l₂) = pyLookup k l₂ := by
  induction l₁ with
  | nil => simp [pyLookup]
  | cons kv rest ih =>
    obtain ⟨k', v'⟩ := kv
    by_cases hk : k' = k
    · simp [pyLookup, hk] at h
    · simp [pyLookup, hk] at h ⊢; exact ih h

theorem pyLookup_filter_none (k : String) (p : String × Value → Bool)
    (m : MetadataMap) (h : ∀ v : Value, p (k, v) = false) :
    pyLookup k (m.filter p) = none := by
  induction m with
  | nil => simp [pyLookup]
  | cons kv rest ih =>
    obtain ⟨k', v'⟩ := kv
    by_cases hk : k' = k
    · subst hk
      rw [List.filter_cons]
      simp [h v']
      exact ih
    · rw [List.filter_cons]
      by_cases hp : p (k', v') = true
      · simp [hp, pyLookup, hk]; exact ih
      · simp at hp; simp [hp]; exact ih

theorem pyLookup_filter_eq (k : String) (p : String × Value → Bool)
    (m : MetadataMap) (h : ∀ v : Value, p (k, v) = true) :
    pyLookup k (m.filter p) = pyLookup k m := by
  induction m with
  | nil => simp [pyLookup]
  | cons kv rest ih =>
    obtain ⟨k', v'⟩ := kv
    by_cases hk : k' = k
    · subst hk
      rw [List.filter_cons]
      simp [h v', pyLookup]
    · rw [List.filter_cons]
      by_cases hp : p (k', v') = true
      · simp [hp, pyLookup, hk]; exact ih
      · simp at hp; simp [hp, pyLookup, hk]; exact ih

theorem pyLookup_dictUpdate_right (k : String) (m n : MetadataMap) (v : Value)
    (h : pyLookup k n = some v) : pyLookup k (dictUpdate m n) = some v := by
  unfold dictUpdate
  rw [pyLookup_append_none]
  · exact h
  · exact pyLookup_filter_none k _ m (fun v' => by simp [h])

theorem pyLookup_dictUpdate_left (k : String) (m n : MetadataMap)
    (h : pyLookup k n = none) : pyLookup k (dictUpdate m n) = pyLookup k m := by
  unfold dictUpdate
  have hfilter : pyLookup k (m.filter (fun kv => (pyLookup kv.1 n).isNone)) =
      pyLookup k m :=
    pyLookup_filter_eq k _ m (fun v2 => by simp [h])
  cases hmk : pyLookup k m with
  | none => rw [pyLookup_append_none k _ n (by rw [hfilter, hmk]), h]
  | some v => rw [pyLookup_append_some k _ n v (by rw [hfilter, hmk])]

theorem pyLookup_eq_of_perm {m₁ m₂ : MetadataMap} (p : m₁.Perm m₂)
    (nd : (dictKeys m₁).Nodup) (k : String) :
    pyLookup k m₁ = pyLookup k m₂ := by
  induction p with
  | nil => rfl
  | cons x _ ih =>
    obtain ⟨k', v⟩ := x
    by_cases hk : k' = k
    · simp [pyLookup, hk]
    · simp only [dictKeys, List.map_cons, List.nodup_cons] at nd
      simp [pyLookup, hk, ih nd.2]
  | swap x y l =>
    obtain ⟨kx, vx⟩ := x
    obtain ⟨ky, vy⟩ := y
    have hxy : ky ≠ kx := by
      simp only [dictKeys, List.map_cons, List.nodup_cons] at nd
      intro h
      exact nd.1 (by simp [h])
    by_cases hx : kx = k
    · subst hx
      simp [pyLookup, hxy]
    · by_cases hy : ky = k
      · subst hy
        simp [pyLookup, hxy.symm, hx]
      · simp [pyLookup, hx, hy]
  | trans p₁ p₂ ih₁ ih₂ =>
    exact (ih₁ nd).trans (ih₂ (((p₁.map Prod.fst).nodup_iff).mp nd))

theorem sortedKeys_eq_of_perm {m₁ m₂ : MetadataMap} (p : m₁.Perm m₂) :
    sortedKeys m₁ = sortedKeys m₂ := by
  unfold sortedKeys
  exact List.eq_of_perm_of_sorted
    ((List.perm_insertionSort _ _).trans
      ((p.map Prod.fst).trans (List.perm_insertionSort _ _).symm))
    (List.sorted_insertionSort _ _) (List.sorted_insertionSort _ _)

theorem pyLower_eq_empty_iff (s : String) : pyLower s = "" ↔ s = "" := by
  obtain ⟨d⟩ := s
  constructor
  · intro h
    have hd : d.map Char.toLower = ([] : List Char) := congrArg String.data h
    have hd2 : d = [] := by
      cases d with
      | nil => rfl
      | cons c cs => simp at hd
    subst hd2; rfl
  · intro h
    rw [h]
    decide

/-! ## Claim theorems -/

/-- C2: `get_file_category` is a pure, total, deterministic function on MIME
strings: every MIME string maps to one of the six categories; matching is
case-insensitive (two strings with the same lowercasing categorize alike);
the `image/`, `audio/`, `video/` prefix tests run first, in that order, and
take precedence over the document-token substring test, which takes
precedence over the archive-token test, with `other` as the default. -/
theorem get_file_category_spec :
    (∀ s : String, get_file_category s = "image" ∨ get_file_category s = "audio" ∨
      get_file_category s = "video" ∨ get_file_category s = "document" ∨
      get_file_category s = "archive" ∨ get_file_category s = "other") ∧
    (∀ s t : String, pyLower s = pyLower t →
      get_file_category s = get_file_category t) ∧
    (∀ s : String, pyStartsWith (pyLower s) "image/" = true →
      get_file_category s = "image") ∧
    (∀ s : String, pyStartsWith (pyLower s) "image/" = false →
      pyStartsWith (pyLower s) "audio/" = true →
      get_file_category s = "audio") ∧
    (∀ s : String, pyStartsWith (pyLower s) "image/" = false →
      pyStartsWith (pyLower s) "audio/" = false →
      pyStartsWith (pyLower s) "video/" = true →
      get_file_category s = "video") ∧
    (∀ s : String, pyStartsWith (pyLower s) "image/" = false →
      pyStartsWith (pyLower s) "audio/" = false →
      pyStartsWith (pyLower s) "video/" = false →
      (["pdf", "word", "document", "text", "officedocument"].any
        (fun x => pyIn x (pyLower s))) = true →
      get_file_category s = "document") ∧
    (∀ s : String, pyStartsWith (pyLower s) "image/" = false →
      pyStartsWith (pyLower s) "audio/" = false →
      pyStartsWith (pyLower s) "video/" = false →
      (["pdf", "word", "document", "text", "officedocument"].any
        (fun x => pyIn x (pyLower s))) = false →
      (["zip", "rar", "7z", "tar", "gzip", "compress"].any
        (fun x => pyIn x (pyLower s))) = true →
      get_file_category s = "archive") ∧
    (∀ s : String, pyStartsWith (pyLower s) "image/" = false →
      pyStartsWith (pyLower s) "audio/" = false →
      pyStartsWith (pyLower s) "video/" = false →
      (["pdf", "word", "document", "text", "officedocument"].any
        (fun x => pyIn x (pyLower s))) = false →
      (["zip", "rar", "7z", "tar", "gzip", "compress"].any
        (fun x => pyIn x (pyLower s))) = false →
      get_file_category s = "other") := by
  refine ⟨?_, ?_, ?_, ?_, ?_, ?_, ?_, ?_⟩
  · intro s
    simp only [get_file_category]
    split_ifs <;> simp
  · intro s t h
    by_cases hs : s = ""
    · subst hs
      have ht : t = "" := (pyLower_eq_empty_iff t).mp (h.symm.trans (by rfl))
      subst ht; rfl
    · by_cases ht : t = ""
      · exfalso
        apply hs
        apply (pyLower_eq_empty_iff s).mp
        rw [h, ht]
        decide
      · simp only [get_file_category, if_neg hs, if_neg ht, h]
  · intro s h1
    by_cases hs : s = ""
    · subst hs; exact absurd h1 (by decide)
    · simp [get_file_category, hs, h1]
  · intro s h1 h2
    by_cases hs : s = ""
    · subst hs; exact absurd h2 (by decide)
    · simp [get_file_category, hs, h1, h2]
  · intro s h1 h2 h3
    by_cases hs : s = ""
    · subst hs; exact absurd h3 (by decide)
    · simp [get_file_category, hs, h1, h2, h3]
  · intro s h1 h2 h3 h4
    by_cases hs : s = ""
    · subst hs; exact absurd h4 (by decide)
    · simp [get_file_category, hs, h1, h2, h3, h4]
  · intro s h1 h2 h3 h4 h5
    by_cases hs : s = ""
    · subst hs; exact absurd h5 (by decide)
    · simp [get_file_category, hs, h1, h2, h3, h4, h5]
  · intro s h1 h2 h3 h4 h5
    by_cases hs : s = ""
    · subst hs; rfl
    · simp [get_file_category, hs, h1, h2, h3, h4, h5]

/-- Witness for C2: a MIME string with the `image/` prefix categorizes as
`image` even though it contains the document token `pdf`, and matching is
case-insensitive on a concrete pair. -/
theorem get_file_category_spec_witness :
    get_file_category "IMAGE/pdf" = "image" ∧
    get_file_category "Application/PDF" = get_file_category "application/pdf" := by
  constructor
  · exact get_file_category_spec.2.2.1 "IMAGE/pdf" (by decide)
  · exact get_file_category_spec.2.1 "Application/PDF" "application/pdf" (by decide)

/-- C3 counterexample: the claim describes sniff-then-extension behavior for
every path, existing or not; but for a nonexistent path whose extension has
a known MIME type (extension lookup would succeed), `detect_type`
short-circuits to `unknown/unknown` without attempting either facility,
while the claimed chain would return the extension-derived type. -/
theorem detect_type_claim_cex :
    detect_type false true none (some "image/jpeg") = "unknown/unknown" ∧
    detect_type_claimed false true none (some "image/jpeg") = "image/jpeg" :=
  ⟨rfl, rfl⟩

/-- C3 amended: `detect_type` is total (never raises); for an existing path
it behaves exactly as the claimed sniff-then-extension-then-octet-stream
chain; for a nonexistent path it returns `unknown/unknown` immediately,
consulting neither facility; and (when neither facility itself yields the
octet-stream string) it returns `application/octet-stream` exactly when
sniffing is unavailable or failed and the extension lookup failed. -/
theorem detect_type_amended :
    (∀ (a : Bool) (r g : Option String),
      detect_type true a r g = detect_type_claimed true a r g) ∧
    (∀ (a : Bool) (r g : Option String),
      detect_type false a r g = "unknown/unknown") ∧
    (∀ (a : Bool) (r g : Option String),
      r ≠ some "application/octet-stream" →
      g ≠ some "application/octet-stream" →
      (detect_type true a r g = "application/octet-stream" ↔
        ((a = false ∨ r = none) ∧ g = none))) := by
  refine ⟨?_, ?_, ?_⟩
  · intro a r g
    cases a <;> cases r <;> rfl
  · intro a r g
    rfl
  · intro a r g hr hg
    cases a <;> cases r <;> cases g <;> simp_all [detect_type]

/-- Witness for C3's amended theorem at concrete inputs. -/
theorem detect_type_amended_witness :
    detect_type true true (some "text/plain") none =
      detect_type_claimed true true (some "text/plain") none ∧
    detect_type false true (some "text/plain") (some "text/plain") =
      "unknown/unknown" ∧
    (detect_type true true none none = "application/octet-stream" ↔
      ((true = false ∨ (none : Option String) = none) ∧
        (none : Option String) = none)) :=
  ⟨detect_type_amended.1 true (some "text/plain") none,
   detect_type_amended.2.1 true (some "text/plain") (some "text/plain"),
   detect_type_amended.2.2 true none none (by decide) (by decide)⟩

/-- C1 counterexample: for a nonexistent input path the generic backend's
`extract` does NOT return a metadata map with a diagnostic key — the
unguarded `os.stat` inside `get_basic_info` raises, and the exception
propagates out of `extract`, contradicting the claim that every catchable
failure (including failed file-stat basic-attribute gathering) becomes a
`<scope>_error` entry in a returned map. -/
theorem generic_extract_missing_file_cex :
    generic_extract missingFS false [] (fun _ => "") (fun _ => "") =
      .error "[Errno 2] No such file or directory: ghost.bin" := rfl

theorem pyLookup_inspect_header_hash_error (c : Except String (List Nat)) :
    pyLookup "hash_error" (inspect_header c 16) = none := by
  cases c with
  | error e => simp [inspect_header, pyLookup]
  | ok bs =>
    simp only [inspect_header]
    cases magic_signatures.find?
        (fun sig => sig.1.isPrefixOf (bs.take 16)) <;>
      simp [pyLookup]

/-- C1 amended: once the initial file-stat succeeds, the generic backend's
`extract` always returns a map, and failures of the later hash and header
steps are recorded as `hash_error` / `header_error` diagnostic keys; but a
failure of the initial stat-based basic-attribute gathering (e.g. a
nonexistent file) propagates as an exception instead of becoming a
diagnostic key. -/
theorem generic_extract_amended (fs : GenericFS) (ha : Bool)
    (hm : MetadataMap) (md5 sha256 : List Nat → String) :
    (∀ st, fs.statRes = .ok st →
      (generic_extract fs ha hm md5 sha256).isOk = true) ∧
    (∀ e, fs.statRes = .error e →
      generic_extract fs ha hm md5 sha256 = .error e) ∧
    (∀ st e m, fs.statRes = .ok st → fs.contentRes = .error e →
      generic_extract fs ha hm md5 sha256 = .ok m →
      pyLookup "header_error" m = some (.str e)) ∧
    (∀ st e m, fs.statRes = .ok st → fs.sizeRes = .error e →
      generic_extract fs false hm md5 sha256 = .ok m →
      pyLookup "hash_error" m = some (.str e)) := by
  refine ⟨?_, ?_, ?_, ?_⟩
  · intro st hst
    simp [generic_extract, get_basic_info, hst, Except.map, Except.isOk, Except.toBool]
  · intro e he
    simp [generic_extract, get_basic_info, he, Except.map]
  · intro st e m hst hcont hok
    simp only [generic_extract, get_basic_info, hst, Except.map, hcont] at hok
    rw [← Except.ok.inj hok]
    apply pyLookup_dictUpdate_right
    simp [inspect_header, pyLookup]
  · intro st e m hst hsize hok
    simp only [generic_extract, get_basic_info, hst, Except.map] at hok
    rw [← Except.ok.inj hok]
    rw [pyLookup_dictUpdate_left _ _ _ (pyLookup_inspect_header_hash_error _)]
    apply pyLookup_dictUpdate_right
    simp [calculate_hashes, hsize, pyLookup]

/-- Witness for C1's amended theorem at a concrete file-system view. -/
theorem generic_extract_amended_witness :
    (generic_extract witnessFS false [] (fun _ => "m") (fun _ => "s")).isOk = true ∧
    pyLookup "header_error"
      ((generic_extract witnessFS false [] (fun _ => "m") (fun _ => "s")).toOption.getD []) =
      some (.str "read denied") ∧
    pyLookup "hash_error"
      ((generic_extract witnessFS false [] (fun _ => "m") (fun _ => "s")).toOption.getD []) =
      some (.str "read denied") := by
  refine ⟨?_, ?_, ?_⟩
  · exact (generic_extract_amended witnessFS false [] (fun _ => "m") (fun _ => "s")).1
      { size := 4, ctime := "1.0", mtime := "2.0", atime := "3.0" } rfl
  · exact (generic_extract_amended witnessFS false [] (fun _ => "m") (fun _ => "s")).2.2.1
      { size := 4, ctime := "1.0", mtime := "2.0", atime := "3.0" } "read denied" _ rfl rfl rfl
  · exact (generic_extract_amended witnessFS false [] (fun _ => "m") (fun _ => "s")).2.2.2
      { size := 4, ctime := "1.0", mtime := "2.0", atime := "3.0" } "read denied" _ rfl rfl rfl

/-- C5: hashing law.  For a readable file of size at most 100 MB the
generic backend reports `md5_hash` and `sha256_hash`, each the digest of
the file's full byte content (the streamed 4096-byte chunks concatenate
back to exactly the content); for a file strictly larger than 100 MB
neither digest key is present and a `hash_note` records the skip. -/
theorem calculate_hashes_law (bs : List Nat) (md5 sha256 : List Nat → String) :
    (bs.length ≤ 100 * 1024 * 1024 →
      calculate_hashes (.ok bs.length) (.ok bs) md5 sha256 (100 * 1024 * 1024) =
        [("md5_hash", .str (md5 bs)), ("sha256_hash", .str (sha256 bs))]) ∧
    (100 * 1024 * 1024 < bs.length →
      calculate_hashes (.ok bs.length) (.ok bs) md5 sha256 (100 * 1024 * 1024) =
        [("hash_note", .str ("File too large (" ++ toString bs.length ++
          " bytes), skipping hash calculation"))] ∧
      pyLookup "md5_hash"
        (calculate_hashes (.ok bs.length) (.ok bs) md5 sha256 (100 * 1024 * 1024)) = none ∧
      pyLookup "sha256_hash"
        (calculate_hashes (.ok bs.length) (.ok bs) md5 sha256 (100 * 1024 * 1024)) = none) := by
  constructor
  · intro hle
    simp only [calculate_hashes]
    rw [if_neg (by omega)]
    rw [foldl_append_eq_join, List.nil_append, chunkList_join 4096 (by decide) bs]
  · intro hgt
    have heq : calculate_hashes (.ok bs.length) (.ok bs) md5 sha256 (100 * 1024 * 1024) =
        [("hash_note", .str ("File too large (" ++ toString bs.length ++
          " bytes), skipping hash calculation"))] := by
      simp only [calculate_hashes]
      rw [if_pos (by omega)]
    refine ⟨heq, ?_, ?_⟩ <;> rw [heq] <;> simp [pyLookup]

/-- Witness for C5 at a 3-byte file and a file one byte over the ceiling. -/
theorem calculate_hashes_law_witness :
    calculate_hashes (.ok ([1, 2, 3] : List Nat).length) (.ok [1, 2, 3])
      (fun _ => "md5digest") (fun _ => "shadigest") (100 * 1024 * 1024) =
      [("md5_hash", .str "md5digest"), ("sha256_hash", .str "shadigest")] ∧
    pyLookup "md5_hash"
      (calculate_hashes (.ok (List.replicate (100 * 1024 * 1024 + 1) (0 : Nat)).length)
        (.ok (List.replicate (100 * 1024 * 1024 + 1) 0))
        (fun _ => "md5digest") (fun _ => "shadigest") (100 * 1024 * 1024)) = none := by
  constructor
  · exact (calculate_hashes_law [1, 2, 3] (fun _ => "md5digest") (fun _ => "shadigest")).1
      (by decide)
  · exact ((calculate_hashes_law (List.replicate (100 * 1024 * 1024 + 1) 0)
      (fun _ => "md5digest") (fun _ => "shadigest")).2
      (by rw [List.length_replicate]; omega)).2.1

/-- C6: list-truncation law for archive member lists.  For more than 50
members, `file_list` holds exactly the first 50 names (comma-joined) and
`file_list_note` reads "... and N more files" with N = total − 50; for at
most 50 members all names are listed and no note is emitted — for both the
ZIP and the TAR extractors. -/
theorem archive_file_list_truncation (infos : List ZipInfo) (statSize : Nat)
    (path : String) (members : List TarMember) :
    (50 < infos.length →
      pyLookup "file_list" (extract_zip (.ok infos) (.ok statSize)) =
        some (.str (String.intercalate ", " ((infos.take 50).map ZipInfo.filename))) ∧
      pyLookup "file_list_note" (extract_zip (.ok infos) (.ok statSize)) =
        some (.str ("... and " ++ toString (infos.length - 50) ++ " more files"))) ∧
    (infos.length ≤ 50 →
      pyLookup "file_list" (extract_zip (.ok infos) (.ok statSize)) =
        some (.str (String.intercalate ", " (infos.map ZipInfo.filename))) ∧
      pyLookup "file_list_note" (extract_zip (.ok infos) (.ok statSize)) = none) ∧
    (50 < members.length →
      pyLookup "file_list" (extract_tar path (.ok members)) =
        some (.str (String.intercalate ", " ((members.take 50).map TarMember.name))) ∧
      pyLookup "file_list_note" (extract_tar path (.ok members)) =
        some (.str ("... and " ++ toString (members.length - 50) ++ " more files"))) ∧
    (members.length ≤ 50 →
      pyLookup "file_list" (extract_tar path (.ok members)) =
        some (.str (String.intercalate ", " (members.map TarMember.name))) ∧
      pyLookup "file_list_note" (extract_tar path (.ok members)) = none) := by
  refine ⟨?_, ?_, ?_, ?_⟩
  · intro h
    by_cases htot : (infos.map ZipInfo.file_size).sum > 0 <;>
      constructor <;> simp [extract_zip, pyLookup, h, htot]
  · intro h
    have hnot : ¬ (50 < infos.length) := by omega
    have htake : infos.take 50 = infos := List.take_of_length_le h
    by_cases htot : (infos.map ZipInfo.file_size).sum > 0 <;>
      constructor <;> simp [extract_zip, pyLookup, hnot, htot, htake]
  · intro h
    constructor <;> simp [extract_tar, pyLookup, h]
  · intro h
    have hnot : ¬ (50 < members.length) := by omega
    have htake : members.take 50 = members := List.take_of_length_le h
    constructor <;> simp [extract_tar, pyLookup, hnot, htake]

/-- Witness for C6: a 51-member ZIP truncates with a note; a 2-member TAR
lists both names with no note. -/
theorem archive_file_list_truncation_witness :
    pyLookup "file_list_note"
      (extract_zip (.ok (List.replicate 51 ⟨"a", 1⟩)) (.ok 10)) =
      some (.str "... and 1 more files") ∧
    pyLookup "file_list_note"
      (extract_tar "x.tar" (.ok [⟨"a", 1⟩, ⟨"b", 2⟩])) = none := by
  constructor
  · exact ((archive_file_list_truncation (List.replicate 51 ⟨"a", 1⟩) 10 "x.tar" []).1
      (by rw [List.length_replicate]; omega)).2
  · exact ((archive_file_list_truncation [] 0 "x.tar" [⟨"a", 1⟩, ⟨"b", 2⟩]).2.2.2
      (by decide)).2

/-- C10: the compression-ratio division in ZIP extraction is guarded.
`compression_ratio_percent` is emitted only when the members' total
uncompressed size is strictly positive (so the division never divides by
zero), and for a zero-total archive the key is absent while `num_files`,
`compression_type` and `total_uncompressed_size_mb` are still present. -/
theorem extract_zip_ratio_guard (infos : List ZipInfo) (statSize : Nat) :
    ((infos.map ZipInfo.file_size).sum = 0 →
      pyLookup "compression_ratio_percent" (extract_zip (.ok infos) (.ok statSize)) = none ∧
      pyLookup "num_files" (extract_zip (.ok infos) (.ok statSize)) =
        some (.int infos.length) ∧
      pyLookup "compression_type" (extract_zip (.ok infos) (.ok statSize)) =
        some (.str "ZIP") ∧
      pyLookup "total_uncompressed_size_mb" (extract_zip (.ok infos) (.ok statSize)) =
        some (.float (pyRound2 (((infos.map ZipInfo.file_size).sum : ℚ) / (1024 * 1024))))) ∧
    ((pyLookup "compression_ratio_percent"
        (extract_zip (.ok infos) (.ok statSize))).isSome = true →
      0 < (infos.map ZipInfo.file_size).sum) := by
  constructor
  · intro h0
    have hnot : ¬ ((infos.map ZipInfo.file_size).sum > 0) := by omega
    refine ⟨?_, ?_, ?_, ?_⟩ <;>
      by_cases h50 : 50 < infos.length <;>
        simp [extract_zip, pyLookup, hnot, h50]
  · intro hsome
    by_contra hz
    have h0 : (infos.map ZipInfo.file_size).sum = 0 := by omega
    have hnot : ¬ ((infos.map ZipInfo.file_size).sum > 0) := by omega
    by_cases h50 : 50 < infos.length <;>
      simp [extract_zip, pyLookup, hnot, h50] at hsome

/-- Witness for C10: a single zero-byte member yields no ratio key but the
other three keys; a positive-size member yields a ratio key. -/
theorem extract_zip_ratio_guard_witness :
    pyLookup "compression_ratio_percent"
      (extract_zip (.ok [⟨"empty.txt", 0⟩]) (.ok 22)) = none ∧
    pyLookup "num_files" (extract_zip (.ok [⟨"empty.txt", 0⟩]) (.ok 22)) =
      some (.int 1) ∧
    (0 : Nat) <
      (([⟨"data.bin", (4 : Nat)⟩] : List ZipInfo).map ZipInfo.file_size).sum := by
  refine ⟨?_, ?_, ?_⟩
  · exact ((extract_zip_ratio_guard [⟨"empty.txt", 0⟩] 22).1 (by decide)).1
  · exact ((extract_zip_ratio_guard [⟨"empty.txt", 0⟩] 22).1 (by decide)).2.1
  · exact (extract_zip_ratio_guard [⟨"data.bin", 4⟩] 2).2 (by decide)

/-- C9: magic-byte law.  A file whose content begins with the exact bytes
`50 4B 03 04` yields `identified_format` = "ZIP archive"; a file whose
16-byte header starts with none of the known signature prefixes yields no
`identified_format` key; in general the emitted format is the first match
in the ordered signature table. -/
theorem inspect_header_magic_law :
    (∀ rest : List Nat,
      pyLookup "identified_format"
        (inspect_header (.ok (0x50 :: 0x4B :: 0x03 :: 0x04 :: rest)) 16) =
        some (.str "ZIP archive")) ∧
    (∀ bytesContent : List Nat,
      (∀ sig ∈ magic_signatures,
        sig.1.isPrefixOf (bytesContent.take 16) = false) →
      pyLookup "identified_format" (inspect_header (.ok bytesContent) 16) = none) ∧
    (∀ bytesContent : List Nat,
      pyLookup "identified_format" (inspect_header (.ok bytesContent) 16) =
        (magic_signatures.find?
          (fun sig => sig.1.isPrefixOf (bytesContent.take 16))).map
          (fun sig => Value.str sig.2)) := by
  refine ⟨?_, ?_, ?_⟩
  · intro rest
    simp [inspect_header, magic_signatures, List.isPrefixOf, pyLookup]
  · intro bc h
    have hfind : magic_signatures.find?
        (fun sig => sig.1.isPrefixOf (bc.take 16)) = none := by
      apply List.find?_eq_none.mpr
      intro sig hsig
      simp [h sig hsig]
    simp [inspect_header, hfind, pyLookup]
  · intro bc
    simp only [inspect_header]
    cases hf : magic_signatures.find?
        (fun sig => sig.1.isPrefixOf (bc.take 16)) <;>
      simp [pyLookup, hf]

/-- Witness for C9: a bare ZIP signature identifies as "ZIP archive"; an
unknown 3-byte header emits no format key. -/
theorem inspect_header_magic_law_witness :
    pyLookup "identified_format"
      (inspect_header (.ok [0x50, 0x4B, 0x03, 0x04]) 16) =
      some (.str "ZIP archive") ∧
    pyLookup "identified_format" (inspect_header (.ok [1, 2, 3]) 16) = none := by
  constructor
  · exact inspect_header_magic_law.1 []
  · exact inspect_header_magic_law.2.1 [1, 2, 3] (by decide)

/-- C4: rendering is independent of insertion order.  The body visits keys
in ascending lexicographic order of the raw key, one line per key, with the
cosmetic display transform applied only after sorting; hence two maps with
the same key-value pairs in any insertion order (keys unique) render to
byte-identical report text once the timestamp line (the `now` parameter) is
fixed. -/
theorem normalize_metadata_order_independent (file_path mime_type now : String)
    (m₁ m₂ : MetadataMap) (hp : m₁.Perm m₂) (nd : (dictKeys m₁).Nodup) :
    (sortedKeys m₁).Sorted (· ≤ ·) ∧
    bodyLines m₁ = (sortedKeys m₁).map (fun k =>
      displayKey k ++ ": " ++ formatValue ((pyLookup k m₁).getD (Value.str ""))) ∧
    (bodyLines m₁).length = m₁.length ∧
    normalize_metadata m₁ file_path mime_type now =
      normalize_metadata m₂ file_path mime_type now := by
  refine ⟨List.sorted_insertionSort _ _, rfl, ?_, ?_⟩
  · simp [bodyLines, sortedKeys, dictKeys,
      (List.perm_insertionSort (· ≤ ·) (m₁.map Prod.fst)).length_eq]
  · have hbody : bodyLines m₁ = bodyLines m₂ := by
      unfold bodyLines
      rw [sortedKeys_eq_of_perm hp]
      apply List.map_congr_left
      intro k _
      rw [pyLookup_eq_of_perm hp nd]
    have hempty : m₁.isEmpty = m₂.isEmpty := by
      have hlen := hp.length_eq
      cases m₁ <;> cases m₂ <;> simp_all
    unfold normalize_metadata normalizeLines
    rw [hempty, hbody, hp.length_eq]

/-- Witness for C4: the same two key-value pairs supplied in either order
render to the same report text. -/
theorem normalize_metadata_order_independent_witness :
    normalize_metadata [("b", Value.str "2"), ("a", Value.str "1")]
        "f.bin" "application/octet-stream" "ts" =
      normalize_metadata [("a", Value.str "1"), ("b", Value.str "2")]
        "f.bin" "application/octet-stream" "ts" :=
  (normalize_metadata_order_independent "f.bin" "application/octet-stream" "ts"
    _ _ (List.Perm.swap ("a", Value.str "1") ("b", Value.str "2") [])
    (by decide)).2.2.2

/-- C8 counterexample: for the empty metadata map the report does NOT end
with (or even contain) a footer stating the field count — the empty-map
early return emits only the header and the no-metadata line, so the claim
that the footer is present for every map, including the empty one, fails. -/
theorem normalize_empty_footer_cex :
    ¬ (("Total metadata fields: 0") ∈
        normalizeLines [] "file.bin" "application/octet-stream" "2026-01-01") ∧
    (normalizeLines [] "file.bin" "application/octet-stream" "2026-01-01").getLast? =
      some "⚠️  No metadata found or unable to extract metadata." := by
  constructor
  · decide
  · rfl

/-- C8 amended: for every NON-empty metadata map the report ends with the
footer block stating the total field count (the number of top-level keys,
counted before the cosmetic key transform); for the empty map the body is
the single explicit no-metadata line and no footer is emitted. -/
theorem normalize_footer_amended (m : MetadataMap) (fp mt now : String) :
    (m ≠ [] → normalizeLines m fp mt now =
      normalizeHeader fp mt now ++ bodyLines m ++
        ["", bar80, "Total metadata fields: " ++ toString m.length, bar80]) ∧
    normalizeLines [] fp mt now =
      normalizeHeader fp mt now ++
        ["⚠️  No metadata found or unable to extract metadata."] := by
  constructor
  · intro h
    unfold normalizeLines
    rw [if_neg]
    simp [h]
  · rfl

/-- Witness for C8's amended theorem on a one-entry map. -/
theorem normalize_footer_amended_witness :
    normalizeLines [("a", Value.str "1")] "f" "m" "t" =
      normalizeHeader "f" "m" "t" ++ bodyLines [("a", Value.str "1")] ++
        ["", bar80,
         "Total metadata fields: " ++
           toString ([("a", Value.str "1")] : MetadataMap).length, bar80] :=
  (normalize_footer_amended [("a", Value.str "1")] "f" "m" "t").1 (by simp)

theorem pyLen_pyReplaceChar (s : String) (old new : Char) :
    pyLen (pyReplaceChar s old new) = pyLen s := by
  simp [pyLen, pyReplaceChar]

theorem pyLen_pySlice (s : String) (n : Nat) :
    pyLen (pySlice s n) = min n (pyLen s) := by
  simp [pyLen, pySlice]

theorem pyReplaceChar_not_mem (s : String) (old new : Char) (h : old ≠ new) :
    old ∉ (pyReplaceChar s old new).data := by
  intro hmem
  simp only [pyReplaceChar] at hmem
  rcases List.mem_map.mp hmem with ⟨a, _, hfa⟩
  by_cases ha : a = old
  · simp [ha] at hfa
    exact h hfa.symm
  · simp [ha] at hfa

theorem strAppend_data (a b : String) : (a ++ b).data = a.data ++ b.data := by
  obtain ⟨xs⟩ := a
  obtain ⟨ys⟩ := b
  rfl

theorem pyLookup_map_none {α : Type} (k : String) (l : List α)
    (fn : α → String × Value) (h : ∀ a ∈ l, (fn a).1 ≠ k) :
    pyLookup k (l.map fn) = none := by
  induction l with
  | nil => rfl
  | cons a rest ih =>
    simp only [List.map_cons]
    rcases hfa : fn a with ⟨k', v⟩
    have hne : k' ≠ k := by
      have := h a (by simp)
      rw [hfa] at this
      exact this
    simp only [pyLookup, if_neg hne]
    exact ih (fun x hx => h x (by simp [hx]))

theorem pdf_prefixed_ne (x : String) : ("pdf_" ++ x) ≠ "first_page_preview" := by
  intro h
  have hd : "pdf_".data ++ x.data = "first_page_preview".data := by
    rw [← strAppend_data]
    exact congrArg String.data h
  have e1 : "pdf_".data = ['p', 'd', 'f', '_'] := rfl
  have h1 : ("pdf_".data ++ x.data).head? = some 'p' := by simp [e1]
  rw [hd] at h1
  have h2 : "first_page_preview".data.head? = some 'f' := rfl
  rw [h2] at h1
  simp at h1

/-- C7 counterexample: the DOCX first-paragraph preview is emitted with its
embedded newline intact — `extract_docx` slices to 200 characters but never
replaces newlines, contradicting the claim that every embedded newline in
every emitted document-backend preview is replaced by a space. -/
theorem document_preview_newline_cex :
    pyLookup "first_paragraph_preview" (extract_docx (.ok cexDocx)) =
      some (.str (pySlice "line one\nline two" 200)) ∧
    ('\n' ∈ (pySlice "line one\nline two" 200).data) := by
  constructor
  · simp [extract_docx, cexDocx, pyLookup]
  · decide

/-- C7 amended: the text-file content preview and the PDF first-page
preview are truncated to at most their first 200 characters with every
embedded newline replaced by a space; the DOCX first-paragraph preview is
truncated to at most its first 200 characters, but its embedded newlines
are kept, not replaced. -/
theorem document_preview_truncation (content : String) (reader : PdfDoc)
    (t : String) (doc : DocxDoc) (p : String) (rest : List String) :
    (pyLookup "preview" (extract_txt (.ok content)) =
        some (.str (pyReplaceChar (pySlice content 200) '\n' ' ')) ∧
      pyLen (pyReplaceChar (pySlice content 200) '\n' ' ') = min 200 (pyLen content) ∧
      '\n' ∉ (pyReplaceChar (pySlice content 200) '\n' ' ').data) ∧
    (reader.numPages > 0 → reader.firstPageText = some t →
      pyLookup "first_page_preview" (extract_pdf (.ok reader)) =
        some (.str (pyReplaceChar (pySlice t 200) '\n' ' ')) ∧
      pyLen (pyReplaceChar (pySlice t 200) '\n' ' ') = min 200 (pyLen t) ∧
      '\n' ∉ (pyReplaceChar (pySlice t 200) '\n' ' ').data) ∧
    (doc.paragraphs = p :: rest →
      pyLookup "first_paragraph_preview" (extract_docx (.ok doc)) =
        some (.str (pySlice p 200)) ∧
      pyLen (pySlice p 200) = min 200 (pyLen p)) := by
  refine ⟨⟨?_, ?_, pyReplaceChar_not_mem _ '\n' ' ' (by decide)⟩, ?_, ?_⟩
  · by_cases hc : content = ""
    · subst hc
      simp [extract_txt, pyLookup, pySlice, pyReplaceChar]
    · simp [extract_txt, pyLookup, hc]
  · rw [pyLen_pyReplaceChar]
    exact pyLen_pySlice content 200
  · intro hp hft
    refine ⟨?_, ?_, pyReplaceChar_not_mem _ '\n' ' ' (by decide)⟩
    · cases hmeta : reader.meta with
      | none =>
        by_cases ht : t = ""
        · subst ht
          simp [extract_pdf, hmeta, pyLookup, hp, hft, pySlice, pyReplaceChar]
        · simp [extract_pdf, hmeta, pyLookup, hp, hft, ht]
      | some meta =>
        by_cases ht : t = ""
        · subst ht
          simp [extract_pdf, hmeta, pyLookup_append_none, pyLookup, hp, hft,
            pySlice, pyReplaceChar]
          rw [pyLookup_append_none _ _ _
            (pyLookup_map_none _ _ _ (fun a _ => pdf_prefixed_ne _))]
          simp [pyLookup]
        · simp [extract_pdf, hmeta, pyLookup_append_none, pyLookup, hp, hft, ht]
          rw [pyLookup_append_none _ _ _
            (pyLookup_map_none _ _ _ (fun a _ => pdf_prefixed_ne _))]
          simp [pyLookup]
    · rw [pyLen_pyReplaceChar]
      exact pyLen_pySlice t 200
  · intro hpar
    constructor
    · simp [extract_docx, hpar, pyLookup]
    · exact pyLen_pySlice p 200

/-- Witness for C7's amended theorem on concrete previews. -/
theorem document_preview_truncation_witness :
    pyLookup "preview" (extract_txt (.ok "hello\nworld")) =
      some (.str (pyReplaceChar (pySlice "hello\nworld" 200) '\n' ' ')) ∧
    pyLookup "first_paragraph_preview" (extract_docx (.ok cexDocx)) =
      some (.str (pySlice "line one\nline two" 200)) ∧
    pyLookup "first_page_preview"
      (extract_pdf (.ok { numPages := 1, meta := none, isEncrypted := false,
                          firstPageText := some "page\ntext" })) =
      some (.str (pyReplaceChar (pySlice "page\ntext" 200) '\n' ' ')) := by
  refine ⟨?_, ?_, ?_⟩
  · exact (document_preview_truncation "hello\nworld"
      { numPages := 0, meta := none, isEncrypted := false, firstPageText := none }
      "" cexDocx "" []).1.1
  · exact ((document_preview_truncation ""
      { numPages := 0, meta := none, isEncrypted := false, firstPageText := none }
      "" cexDocx "line one\nline two" []).2.2 rfl).1
  · exact ((document_preview_truncation ""
      { numPages := 1, meta := none, isEncrypted := false,
        firstPageText := some "page\ntext" }
      "page\ntext" cexDocx "" []).2.1 (by decide) rfl).1
